import Mathlib

/-! Shallow embedding of the ts-coding-agent tool-invocation protocol:
`src/tools.ts` (the tool handlers and the approval gate), `src/parser.ts`
(response extraction, markup decoding and dispatch) and `src/main.ts`
(the bounded session loop).  Effectful source code is embedded as pure
functions threaded with oracles (filesystem, process, operator input)
that return, besides the source's result value, the trace of side
effects the source would perform.  JS strings are modelled as Lean
strings over their character lists; `undefined` string-valued fields are
modelled as `Option String` with `none` for `undefined`. -/

namespace Agent

/-- ASCII model of `String.prototype.toLowerCase` on one character
(the agent only compares ASCII tag names and the operator's y/n line). -/
def jsCharLower (c : Char) : Char :=
  if 65 ≤ c.toNat ∧ c.toNat ≤ 90 then Char.ofNat (c.toNat + 32) else c

/-- Model of JS `toLowerCase` on a whole string. -/
def jsToLower (s : String) : String := String.mk (s.toList.map jsCharLower)

/-- Rendering of a possibly-`undefined` JS string in a template literal:
`undefined` prints as the text "undefined". -/
def jsToStr : Option String → String
  | none => "undefined"
  | some s => s

def isWs (c : Char) : Bool := c.isWhitespace

/-- Drop leading whitespace (one half of JS `String.prototype.trim`). -/
def trimLeft (l : List Char) : List Char := l.dropWhile isWs

/-- Drop trailing whitespace (the other half of JS `trim`). -/
def trimRight (l : List Char) : List Char := (l.reverse.dropWhile isWs).reverse

/-- Model of JS `String.prototype.trim` on character lists. -/
def trimChars (l : List Char) : List Char := trimRight (trimLeft l)

/-- Is `pat` a contiguous sublist of the second argument?  Models JS
`String.prototype.includes`. -/
def hasSubList (pat : List Char) : List Char → Bool
  | [] => pat.isEmpty
  | c :: rest => pat.isPrefixOf (c :: rest) || hasSubList pat rest

/-- JS `p.includes("..")`: the path-traversal test used by `readFile`
and `writeFile` in `tools.ts`. -/
def hasDotDot (p : String) : Bool := hasSubList ['.', '.'] p.toList

/-- JS `s.includes(pat)` on strings (used for `error.message?.includes("SAFETY")`
in `main.ts`). -/
def hasSubstr (s pat : String) : Bool := hasSubList pat.toList s.toList

/-- Approval Gate, `askForUserApproval` in `tools.ts`: render the prompt,
read one operator line, return `answer.toLowerCase() === 'y'`.
Note that the source does not trim the answer. -/
def askForUserApproval (answer : String) : Bool := jsToLower answer == "y"

/-! ## Parameter records (`src/types.ts`) -/

structure ListFileParams where
  path : Option String
  recursive : Option String
deriving Repr, DecidableEq

structure ReadFileParams where
  path : Option String
deriving Repr, DecidableEq

structure WriteFileParams where
  path : Option String
  content : Option String
deriving Repr, DecidableEq

structure AskQuestionParams where
  question : Option String
deriving Repr, DecidableEq

structure ExecuteCommandParams where
  command : Option String
  requires_approval : Option String
deriving Repr, DecidableEq

structure CompleteParams where
  result : Option String
deriving Repr, DecidableEq

/-- `ToolResponse` in `src/types.ts`. -/
structure ToolResponse where
  success : Bool
  message : String
deriving Repr, DecidableEq

/-! ## Side-effect traces and environment oracles -/

/-- One observable side effect of a handler.  `promptUser` is terminal
I/O (a blocking `rl.question` call); the others are filesystem or
process effects. -/
inductive Effect where
  | promptUser (msg : String)
  | fsMkdir (dir : String)
  | fsWriteF (path content : String)
  | procSpawn (cmd : String)
  | fsReadF (path : String)
  | fsReaddir (dir : String)
deriving Repr, DecidableEq

/-- Filesystem and process effects, as opposed to terminal prompts. -/
def isSideEffect : Effect → Bool
  | .promptUser _ => false
  | _ => true

/-- Outcome of `exec` for a shell command: either resolution with
captured stdout/stderr, or rejection with an error message carrying
captured stderr/stdout. -/
inductive ExecOutcome where
  | success (stdout stderr : String)
  | failure (message stderr stdout : String)
deriving Repr, DecidableEq

/-- The external world the handlers interact with: each field models one
Node API (`fs.readFile`, `fs.readdir` with entry types, `fs.mkdir`,
`fs.writeFile`, promisified `exec`).  Errors carry `error.message`.
`fuel` bounds the recursive directory walk, which the embedding needs
to be total (the source recurses on the finite directory tree). -/
structure Env where
  readRes : String → Except String String
  readdirRes : String → Except String (List (String × Bool))
  mkdirRes : String → Except String Unit
  writeRes : String → String → Except String Unit
  exec : String → ExecOutcome
  fuel : Nat

/-- Abstraction of `path.join` (path normalization is not modelled; no
verified property depends on it). -/
def joinPath (a b : String) : String :=
  if a == "" then b else a ++ "/" ++ b

/-- Abstraction of POSIX `path.dirname`. -/
def dirname (p : String) : String :=
  match p.toList.reverse.dropWhile (fun c => !(c == '/')) with
  | [] => "."
  | _ :: rest => if rest.isEmpty then "/" else String.mk rest.reverse

/-! ## Tool handlers (`src/tools.ts`) -/

mutual

/-- The `readDirRecursive` inner function of `listFile`: pre-order walk
pushing each entry's joined path and descending into directories. -/
def readDirRec (env : Env) (fuel : Nat) (dir : String) :
    Except String (List String) × List Effect :=
  match fuel with
  | 0 => (.error "Maximum call stack size exceeded", [])
  | fuel' + 1 =>
    match env.readdirRes dir with
    | .error e => (.error e, [.fsReaddir dir])
    | .ok entries =>
      match readEntries env fuel' dir entries with
      | (r, effs) => (r, .fsReaddir dir :: effs)
termination_by (fuel, 0)

/-- Body of the `for (const entry of entries)` loop in `readDirRecursive`. -/
def readEntries (env : Env) (fuel : Nat) (dir : String)
    (ents : List (String × Bool)) : Except String (List String) × List Effect :=
  match ents with
  | [] => (.ok [], [])
  | ent :: rest =>
    let full := joinPath dir ent.1
    if ent.2 then
      match readDirRec env fuel full with
      | (.error e, effs) => (.error e, effs)
      | (.ok sub, effs) =>
        match readEntries env fuel dir rest with
        | (.error e, effs₂) => (.error e, effs ++ effs₂)
        | (.ok more, effs₂) => (.ok (full :: sub ++ more), effs ++ effs₂)
    else
      match readEntries env fuel dir rest with
      | (.error e, effs₂) => (.error e, effs₂)
      | (.ok more, effs₂) => (.ok (full :: more), effs₂)
termination_by (fuel, ents.length + 1)

end

/-- `listFile` in `tools.ts`. -/
def listFile (env : Env) (ps : ListFileParams) : ToolResponse × List Effect :=
  let targetPath := match ps.path with
    | none => "."
    | some p => if p == "" then "." else p
  let recursive := match ps.recursive with
    | none => false
    | some r => jsToLower r == "true"
  if recursive then
    match readDirRec env env.fuel targetPath with
    | (.ok files, effs) =>
      (⟨true, "Directory " ++ targetPath ++ " listing:\n" ++
        String.intercalate "\n" (files.map (fun f => "- " ++ f))⟩, effs)
    | (.error e, effs) => (⟨false, "Failed to list directory: " ++ e⟩, effs)
  else
    match env.readdirRes targetPath with
    | .ok entries =>
      (⟨true, "Directory " ++ targetPath ++ " listing:\n" ++
        String.intercalate "\n"
          ((entries.map (fun ent => joinPath targetPath ent.1)).map
            (fun f => "- " ++ f))⟩, [.fsReaddir targetPath])
    | .error e => (⟨false, "Failed to list directory: " ++ e⟩, [.fsReaddir targetPath])

/-- `readFile` in `tools.ts`.  An `undefined` path makes
`params.path.includes` throw a TypeError, which the handler's own
`catch` converts into a failure result. -/
def readFile (env : Env) (ps : ReadFileParams) : ToolResponse × List Effect :=
  match ps.path with
  | none =>
    (⟨false, "Failed to read file: Cannot read properties of undefined (reading 'includes')"⟩, [])
  | some p =>
    if hasDotDot p then
      (⟨false, "Invalid path: Path traversal detected."⟩, [])
    else
      match env.readRes p with
      | .ok content => (⟨true, content⟩, [.fsReadF p])
      | .error e => (⟨false, "Failed to read file: " ++ e⟩, [.fsReadF p])

/-- The confirmation message `writeFile` shows the operator. -/
def writeConfirmMsg (p c : String) : String :=
  "\n⚠️ Action Required: Attempting to write to file \"" ++ p ++
  "\".\n   Content preview (first 100 chars):\n   \"" ++
  (String.mk (c.toList.take 100) ++ (if 100 < c.toList.length then "..." else "")) ++
  "\"\n\nDo you want to allow this write operation?"

/-- `writeFile` in `tools.ts`: traversal check, then the Approval Gate,
and only on approval `fs.mkdir` + `fs.writeFile`.  `op` is the operator
line the gate will read. -/
def writeFile (env : Env) (op : String) (ps : WriteFileParams) :
    ToolResponse × List Effect :=
  match ps.path with
  | none =>
    (⟨false, "Failed to write file: Cannot read properties of undefined (reading 'includes')"⟩, [])
  | some p =>
    if hasDotDot p then
      (⟨false, "Invalid path: Path traversal detected."⟩, [])
    else
      match ps.content with
      | none =>
        (⟨false, "Failed to write file: Cannot read properties of undefined (reading 'substring')"⟩, [])
      | some c =>
        let msg := writeConfirmMsg p c
        if askForUserApproval op then
          match env.mkdirRes (dirname p) with
          | .error e =>
            (⟨false, "Failed to write file: " ++ e⟩,
             [.promptUser msg, .fsMkdir (dirname p)])
          | .ok _ =>
            match env.writeRes p c with
            | .error e =>
              (⟨false, "Failed to write file: " ++ e⟩,
               [.promptUser msg, .fsMkdir (dirname p), .fsWriteF p c])
            | .ok _ =>
              (⟨true, "Successfully wrote to file " ++ p⟩,
               [.promptUser msg, .fsMkdir (dirname p), .fsWriteF p c])
        else
          (⟨false, "Write operation cancelled by user."⟩, [.promptUser msg])

/-- `askQuestion` in `tools.ts`: one blocking prompt, always succeeds
with the operator's line. -/
def askQuestion (op : String) (ps : AskQuestionParams) :
    ToolResponse × List Effect :=
  (⟨true, "User answer: " ++ op⟩,
   [.promptUser ("\nQuestion: " ++ jsToStr ps.question ++ "\nAnswer: ")])

/-- The confirmation message `executeCommand` shows the operator. -/
def execConfirmMsg (cmd : Option String) : String :=
  "\n☢️ Action Required: Attempting to execute the following command:\n\n   " ++
  jsToStr cmd ++ "\n\nDo you want to allow this command execution?"

/-- `executeCommand` in `tools.ts`: always asks the Approval Gate first
(`params.requires_approval` is never read), then runs the command only
on approval.  An `undefined` command makes `exec` throw a TypeError
before spawning, caught by the handler. -/
def executeCommand (env : Env) (op : String) (ps : ExecuteCommandParams) :
    ToolResponse × List Effect :=
  let msg := execConfirmMsg ps.command
  if askForUserApproval op then
    match ps.command with
    | none =>
      (⟨false,
        "Failed to execute command: The \"command\" argument must be of type string. Received undefined\n"⟩,
       [.promptUser msg])
    | some cmd =>
      match env.exec cmd with
      | .success stdout _stderr =>
        (⟨true, "Command executed successfully." ++
          (if stdout == "" then "" else "\nOutput:\n" ++ stdout)⟩,
         [.promptUser msg, .procSpawn cmd])
      | .failure m stderr stdout =>
        (⟨false, "Failed to execute command: " ++ m ++ "\n" ++
          (if stderr == "" then "" else "Stderr: " ++ stderr ++ "\n") ++
          (if stdout == "" then "" else "Stdout: " ++ stdout)⟩,
         [.promptUser msg, .procSpawn cmd])
  else
    (⟨false, "Command execution cancelled by user."⟩, [.promptUser msg])

/-- `complete` in `tools.ts`: always succeeds. -/
def complete (ps : CompleteParams) : ToolResponse × List Effect :=
  (⟨true, "Task completed: " ++ jsToStr ps.result⟩, [])

/-! ## Response Extractor (`src/parser.ts`) -/

/-- The backtick character (code 96), named to keep literals out of the
source text. -/
def fenceChar : Char := Char.ofNat 96

/-- Does the list start with a three-backtick code fence? -/
def startsWithFence (l : List Char) : Bool :=
  match l with
  | a :: b :: c :: _ => a == fenceChar && b == fenceChar && c == fenceChar
  | _ => false

/-- Model of `.replace(/^(three backticks)(?:xml)?\s*` + `/i, '')`:
strip a leading code fence, an optional case-insensitive `xml` tag and
following whitespace. -/
def stripLeadingFence (l : List Char) : List Char :=
  if startsWithFence l then
    let rest := l.drop 3
    let rest₁ :=
      match rest with
      | x :: m :: lc :: r =>
        if (x == 'x' || x == 'X') && (m == 'm' || m == 'M') &&
           (lc == 'l' || lc == 'L') then r else rest
      | _ => rest
    rest₁.dropWhile isWs
  else l

/-- Model of `.replace(/(three backticks)\s*$/, '')`: strip a trailing
code fence together with trailing whitespace. -/
def stripTrailingFence (l : List Char) : List Char :=
  let r := l.reverse.dropWhile isWs
  if startsWithFence r then (r.drop 3).reverse else l

/-- The response-cleaning pipeline of `parseAndExecuteTool`:
`llmResponse.trim().replace(leading fence).replace(trailing fence).trim()`. -/
def cleanChars (l : List Char) : List Char :=
  trimChars (stripTrailingFence (stripLeadingFence (trimChars l)))

/-- Character class of the `toolNameRegex` `/<([a-z_]+)>/`: lowercase
letters and underscore only. -/
def isToolChar (c : Char) : Bool :=
  (97 ≤ c.toNat && c.toNat ≤ 122) || c == '_'

/-- `cleanedResponse.match(toolNameRegex)`: scan for the first position
where `<` is followed by a nonempty run of `[a-z_]` and then `>`; return
the captured name.  Regex backtracking cannot help at a failed position
(a shorter run is still followed by a `[a-z_]` character, never `>`), so
this scan is the exact match semantics. -/
def findTool : List Char → Option String
  | [] => none
  | c :: rest =>
    if c == '<' then
      let nm := rest.takeWhile isToolChar
      if !nm.isEmpty && ((rest.dropWhile isToolChar).head? == some '>') then
        some (String.mk nm)
      else findTool rest
    else findTool rest

/-! ## Parameter Decoder

The source hands the cleaned text to the external `xml2js` parser with
`explicitArray: false`, `trim: true` and lower-casing tag-name
processors, and takes `parsedXml[toolType] || {}` as the parameter
object.  The library is an external collaborator; per the decoder
contract (spec section 4.2) it is modelled as a parser of a nested
markup document whose recognized shape is one root element whose
children are flat `name -> text` parameters (deeper nesting and
attributes are outside the contract and are reported as malformed;
mixed text-and-element content likewise).  Like `xml2js`, which emits
its result as soon as the first root element closes, the model decodes
the first root element and ignores any trailing content; and like the
strict sax layer underneath it, the model rejects tag names outside
the name production and invalid entity uses, and decodes character
entities in text.  A text-only element is modelled with empty
`children`, which coincides with the source's behavior: a string
parameter object either is falsy (`''`, replaced by `{}`) or yields
`undefined` for every named field access. -/

/-- Characters the model's tag-name scanner consumes: anything but the
markup delimiters and whitespace.  Validity of the scanned name is
checked separately with `validName`. -/
def isNameChar (c : Char) : Bool :=
  !(c == '<' || c == '>' || c == '/') && !(isWs c)

/-- ASCII name-start characters of the XML name production (letters and
underscore). -/
def isNameStart (c : Char) : Bool :=
  (65 ≤ c.toNat && c.toNat ≤ 90) || (97 ≤ c.toNat && c.toNat ≤ 122) || c == '_'

/-- ASCII name characters of the XML name production (name-start
characters, digits, hyphen, dot). -/
def isNameBody (c : Char) : Bool :=
  isNameStart c || (48 ≤ c.toNat && c.toNat ≤ 57) || c == '-' || c == '.'

/-- A valid tag name: nonempty, a name-start character followed by name
characters, as the strict sax parser requires. -/
def validName (l : List Char) : Bool :=
  match l with
  | [] => false
  | c :: cs => isNameStart c && cs.all isNameBody

/-- Value of one digit in the given base, if it is one. -/
def charVal (base : Nat) (c : Char) : Option Nat :=
  let v :=
    if 48 ≤ c.toNat ∧ c.toNat ≤ 57 then some (c.toNat - 48)
    else if 97 ≤ c.toNat ∧ c.toNat ≤ 102 then some (c.toNat - 87)
    else if 65 ≤ c.toNat ∧ c.toNat ≤ 70 then some (c.toNat - 55)
    else none
  match v with
  | some n => if n < base then some n else none
  | none => none

/-- A numeric character reference body: digits in the given base,
yielding a valid scalar codepoint. -/
def numEntity (base : Nat) (ds : List Char) : Except String Char :=
  match ds.foldl
      (fun acc c =>
        match acc, charVal base c with
        | some n, some d => some (n * base + d)
        | _, _ => none)
      (if ds.isEmpty then none else some 0) with
  | none => .error "Invalid character entity"
  | some n =>
    if n < 55296 ∨ (57344 ≤ n ∧ n ≤ 1114111) then .ok (Char.ofNat n)
    else .error "Invalid character entity"

/-- Resolve the body of an entity reference (between `&` and `;`): the
five predefined named entities or a numeric character reference;
anything else is the sax "Invalid character entity" error. -/
def entityValue (ent : List Char) : Except String Char :=
  if ent == ['a', 'm', 'p'] then .ok '&'
  else if ent == ['l', 't'] then .ok '<'
  else if ent == ['g', 't'] then .ok '>'
  else if ent == ['q', 'u', 'o', 't'] then .ok (Char.ofNat 34)
  else if ent == ['a', 'p', 'o', 's'] then .ok (Char.ofNat 39)
  else
    match ent with
    | c :: ds =>
      if c == '#' then
        match ds with
        | d :: hs =>
          if d == 'x' || d == 'X' then numEntity 16 hs else numEntity 10 ds
        | [] => .error "Invalid character entity"
      else .error "Invalid character entity"
    | [] => .error "Invalid character entity"

/-- Entity decoding of a text run, as the sax layer performs it while
streaming: outside an entity, `&` opens one; inside, characters are
buffered until `;` resolves it.  An unterminated or invalid entity is a
parse error. -/
def decodeEntitiesAux : Option (List Char) → List Char → Except String (List Char)
  | none, [] => .ok []
  | some _, [] => .error "Invalid character entity"
  | none, c :: cs =>
    if c == '&' then decodeEntitiesAux (some []) cs
    else
      match decodeEntitiesAux none cs with
      | .error e => .error e
      | .ok ds => .ok (c :: ds)
  | some buf, c :: cs =>
    if c == ';' then
      match entityValue buf.reverse with
      | .error e => .error e
      | .ok ch =>
        match decodeEntitiesAux none cs with
        | .error e => .error e
        | .ok ds => .ok (ch :: ds)
    else decodeEntitiesAux (some (c :: buf)) cs

/-- Entity decoding of a complete text run. -/
def decodeEntities (l : List Char) : Except String (List Char) :=
  decodeEntitiesAux none l

/-- The decoded document: root element name (lower-cased), its child
elements as `name -> trimmed text` pairs (names lower-cased), and its
own text when it has no children. -/
structure XElem where
  name : String
  children : List (String × String)
  text : String
deriving Repr, DecidableEq

/-- Parse one child element `<name>text</name>` or `<name/>`;
returns the (lower-cased name, trimmed text) pair and the rest. -/
def parseChild (cs : List Char) : Except String ((String × String) × List Char) :=
  match cs with
  | c₀ :: rest =>
    if c₀ == '<' then
      let nm := rest.takeWhile isNameChar
      let r₁ := rest.dropWhile isNameChar
      if validName nm then
        match r₁ with
        | c₁ :: r₂ =>
          if c₁ == '/' then
            match r₂ with
            | c₂ :: r₃ =>
              if c₂ == '>' then .ok ((String.mk (nm.map jsCharLower), ""), r₃)
              else .error "Malformed tag"
            | [] => .error "Malformed tag"
          else if c₁ == '>' then
            let txt := r₂.takeWhile (fun c => !(c == '<'))
            let r₃ := r₂.dropWhile (fun c => !(c == '<'))
            match r₃ with
            | _ :: r₄ =>
              if r₄.head? == some '/' then
                let nm₂ := r₄.tail.takeWhile isNameChar
                let r₅ := r₄.tail.dropWhile isNameChar
                if nm₂ == nm then
                  match r₅ with
                  | c₃ :: r₆ =>
                    if c₃ == '>' then
                      match decodeEntities txt with
                      | .error e => .error e
                      | .ok dtxt =>
                        .ok ((String.mk (nm.map jsCharLower), String.mk (trimChars dtxt)), r₆)
                    else .error "Malformed closing tag"
                  | [] => .error "Malformed closing tag"
                else .error "Mismatched closing tag"
              else .error "Nested parameter content is outside the decoder contract"
            | [] => .error "Unclosed element"
          else .error "Malformed tag"
        | [] => .error "Malformed tag"
      else .error "Invalid character in tag name"
    else .error "Expected an element"
  | [] => .error "Expected an element"

/-- Parse the sequence of child elements of the root, stopping at the
root's closing tag.  `fuel` only needs to exceed the number of children. -/
def parseChildren : Nat → List Char →
    Except String (List (String × String) × List Char)
  | 0, _ => .error "Parser fuel exhausted"
  | f + 1, cs =>
    match cs.dropWhile isWs with
    | c :: r =>
      if c == '<' then
        if r.head? == some '/' then .ok ([], c :: r)
        else
          match parseChild (c :: r) with
          | .error e => .error e
          | .ok (p, rest) =>
            match parseChildren f rest with
            | .error e => .error e
            | .ok (ps, rest₂) => .ok (p :: ps, rest₂)
      else .error "Unexpected content in element"
    | [] => .error "Unexpected content in element"

/-- Parse the root element. -/
def parseElem (fuel : Nat) (cs : List Char) : Except String (XElem × List Char) :=
  match cs with
  | c₀ :: rest =>
    if c₀ == '<' then
      let nm := rest.takeWhile isNameChar
      let r₁ := rest.dropWhile isNameChar
      if validName nm then
        match r₁ with
        | c₁ :: r₂ =>
          if c₁ == '/' then
            match r₂ with
            | c₂ :: r₃ =>
              if c₂ == '>' then .ok (⟨String.mk (nm.map jsCharLower), [], ""⟩, r₃)
              else .error "Malformed tag"
            | [] => .error "Malformed tag"
          else if c₁ == '>' then
            let txt := r₂.takeWhile (fun c => !(c == '<'))
            let r₃ := r₂.dropWhile (fun c => !(c == '<'))
            match r₃ with
            | _ :: r₄ =>
              if r₄.head? == some '/' then
                let nm₂ := r₄.tail.takeWhile isNameChar
                let r₅ := r₄.tail.dropWhile isNameChar
                if nm₂ == nm then
                  match r₅ with
                  | c₃ :: r₆ =>
                    if c₃ == '>' then
                      match decodeEntities txt with
                      | .error e => .error e
                      | .ok dtxt =>
                        .ok (⟨String.mk (nm.map jsCharLower), [], String.mk (trimChars dtxt)⟩, r₆)
                    else .error "Malformed closing tag"
                  | [] => .error "Malformed closing tag"
                else .error "Mismatched closing tag"
              else
                if (trimChars txt).isEmpty then
                  match parseChildren fuel r₃ with
                  | .error e => .error e
                  | .ok (children, r₅) =>
                    match r₅ with
                    | c₄ :: r₆ =>
                      if c₄ == '<' && (r₆.head? == some '/') then
                        let nm₂ := r₆.tail.takeWhile isNameChar
                        let r₇ := r₆.tail.dropWhile isNameChar
                        if nm₂ == nm then
                          match r₇ with
                          | c₅ :: r₈ =>
                            if c₅ == '>' then
                              .ok (⟨String.mk (nm.map jsCharLower), children, ""⟩, r₈)
                            else .error "Malformed closing tag"
                          | [] => .error "Malformed closing tag"
                        else .error "Mismatched closing tag"
                      else .error "Unclosed element"
                    | [] => .error "Unclosed element"
                else .error "Mixed content is outside the decoder contract"
            | [] => .error "Unclosed element"
          else .error "Malformed tag"
        | [] => .error "Malformed tag"
      else .error "Invalid character in tag name"
    else .error "Expected an element"
  | [] => .error "Expected an element"

/-- Parse the cleaned text as a document, skipping leading whitespace.
`xml2js` emits its result the moment the first root element closes
(its sax close-tag handler marks the stream ended and fires the `end`
event), so trailing content after the first root — a second action
block included — is ignored, not an error: the first root element
alone is the result. -/
def parseDoc (cs : List Char) : Except String XElem :=
  let cs₁ := cs.dropWhile isWs
  match parseElem cs₁.length cs₁ with
  | .error e => .error e
  | .ok (el, _) => .ok el

/-! ## Action Dispatcher (`parseAndExecuteTool` in `src/parser.ts`) -/

/-- A decoded invocation: the extracted action name and its flat
parameter mapping. -/
structure ParsedInvocation where
  actionName : String
  params : List (String × String)
deriving Repr, DecidableEq

/-- Field access `params.k` on the decoded parameter object. -/
def getParam (k : String) : List (String × String) → Option String
  | [] => none
  | p :: ps => if p.1 == k then some p.2 else getParam k ps

/-- The decode phase of `parseAndExecuteTool`: clean, extract the first
tool tag, parse the document, and take `parsedXml[toolType] || {}` as
the parameters.  Errors carry the exact failure message the source
returns (the parse error is wrapped by the surrounding `catch`). -/
def decodeInvocation (llmResponse : String) : Except String ParsedInvocation :=
  let cleaned := cleanChars llmResponse.toList
  if cleaned.isEmpty then .error "Cleaned response is empty."
  else
    match findTool cleaned with
    | none => .error "No valid tool tag found in the cleaned response."
    | some toolType =>
      match parseDoc cleaned with
      | .error e => .error ("Error processing tool response: " ++ e)
      | .ok doc =>
        .ok ⟨toolType, if doc.name == toolType then doc.children else []⟩

/-- What one call of `parseAndExecuteTool` produces: the source's
`{ response, toolType, isComplete }` record, together with the trace of
side effects and the list of handlers that were executed. -/
structure DispatchOut where
  response : ToolResponse
  toolType : Option String
  isComplete : Bool
  effects : List Effect
  dispatched : List String
deriving Repr, DecidableEq

/-- `parseAndExecuteTool`: decode, then switch on the tool name and run
exactly one handler; unknown names produce a failure without executing a
handler; decode failures produce a failure with `toolType: null`. -/
def parseAndExecuteTool (env : Env) (op : String) (llmResponse : String) :
    DispatchOut :=
  match decodeInvocation llmResponse with
  | .error m => ⟨⟨false, m⟩, none, false, [], []⟩
  | .ok inv =>
    match inv.actionName with
    | "list_file" =>
      match listFile env ⟨getParam "path" inv.params, getParam "recursive" inv.params⟩ with
      | (r, effs) => ⟨r, some "list_file", false, effs, ["list_file"]⟩
    | "read_file" =>
      match readFile env ⟨getParam "path" inv.params⟩ with
      | (r, effs) => ⟨r, some "read_file", false, effs, ["read_file"]⟩
    | "write_file" =>
      match writeFile env op ⟨getParam "path" inv.params, getParam "content" inv.params⟩ with
      | (r, effs) => ⟨r, some "write_file", false, effs, ["write_file"]⟩
    | "ask_question" =>
      match askQuestion op ⟨getParam "question" inv.params⟩ with
      | (r, effs) => ⟨r, some "ask_question", false, effs, ["ask_question"]⟩
    | "execute_command" =>
      match executeCommand env op ⟨getParam "command" inv.params,
          getParam "requires_approval" inv.params⟩ with
      | (r, effs) => ⟨r, some "execute_command", false, effs, ["execute_command"]⟩
    | "complete" =>
      match complete ⟨getParam "result" inv.params⟩ with
      | (r, effs) => ⟨r, some "complete", true, effs, ["complete"]⟩
    | other => ⟨⟨false, "Unknown tool type: " ++ other⟩, some other, false, [], []⟩

/-! ## Session Loop (`main` in `src/main.ts`) -/

/-- One reply of the model transport to `chat.sendMessage`: a text
completion, an empty response carrying an optional finish reason, or a
thrown fault carrying `error.message`. -/
inductive ModelReply where
  | text (s : String)
  | emptyReply (finishReason : Option String)
  | fault (message : String)

/-- The loop's mutable state: the turn counter, the completion flag, the
next outbound message (`null` once `complete` ran) and whether the loop
was exited by `break`. -/
structure SessState where
  turns : Nat
  isComplete : Bool
  messageToSend : Option String
  broke : Bool
deriving Repr, DecidableEq

/-- `const maxTurns = 15`. -/
def maxTurns : Nat := 15

/-- The retry message synthesized after an empty, non-blocked response. -/
def emptyRetryMsg : String :=
  "[SYSTEM] Received empty response from model. Please check previous steps and try again, outputting a valid XML tool."

/-- The corrective message synthesized after a non-safety fault. -/
def sysErrMsg (m : String) : String :=
  "[SYSTEM Error] An error occurred: " ++ m ++
  ". Please analyze the error and previous steps, then decide the next best tool to use or use the complete tool if the task is impossible."

/-- Next outbound message built from a tool result:
`[(toolType) Result] (Success|Failure):\n(message)`, with
`[Execution Result]` when the tool type is unknown. -/
def foldOutbound (toolType : Option String) (r : ToolResponse) : String :=
  (match toolType with
   | some n => "[" ++ n ++ " Result]"
   | none => "[Execution Result]") ++ " " ++
  (if r.success then "Success" else "Failure") ++ ":\n" ++ r.message

/-- The `while` guard:
`!isComplete && turns < maxTurns && messageToSend !== null`, plus the
`break` flag of the embedding. -/
def loopGuard (s : SessState) : Bool :=
  !s.broke && !s.isComplete && decide (s.turns < maxTurns) && s.messageToSend.isSome

/-- One iteration of the main loop.  `replies i` is what the `i`-th
(0-based) `chat.sendMessage` call produces; `ops i` is the operator line
available to a prompt during that turn.  An empty reply whose finish
reason is SAFETY, RECITATION or OTHER exits via `break`; a thrown fault
whose message contains "SAFETY" sets `isComplete` (the source's way of
ending the loop); all other iterations either dispatch the tool or
synthesize a corrective message. -/
def loopIter (env : Env) (replies : Nat → ModelReply) (ops : Nat → String)
    (s : SessState) : SessState :=
  let i := s.turns
  match replies i with
  | .emptyReply reason =>
    if reason == some "SAFETY" || reason == some "RECITATION" ||
       reason == some "OTHER" then
      { s with turns := i + 1, broke := true }
    else
      { s with turns := i + 1, messageToSend := some emptyRetryMsg }
  | .fault m =>
    if hasSubstr m "SAFETY" then
      { s with turns := i + 1, isComplete := true }
    else
      { s with turns := i + 1, messageToSend := some (sysErrMsg m) }
  | .text t =>
    let d := parseAndExecuteTool env (ops i) t
    if d.isComplete then
      { s with turns := i + 1, isComplete := true, messageToSend := none }
    else
      { s with turns := i + 1, isComplete := false,
               messageToSend := some (foldOutbound d.toolType d.response) }

/-- Run the loop for at most `f` more iterations (the guard makes the
turn counter the real bound). -/
def runAux (env : Env) (replies : Nat → ModelReply) (ops : Nat → String) :
    Nat → SessState → SessState
  | 0, s => s
  | f + 1, s =>
    if loopGuard s then runAux env replies ops f (loopIter env replies ops s)
    else s

/-- The loop's initial state: the operator's task is the first outbound
message. -/
def initState (task : String) : SessState := ⟨0, false, some task, false⟩

/-- The whole session loop: every iteration increments `turns` by one,
so `maxTurns` units of fuel are exact. -/
def mainLoop (env : Env) (replies : Nat → ModelReply) (ops : Nat → String)
    (task : String) : SessState :=
  runAux env replies ops maxTurns (initState task)

/-- The three terminal reports printed after the loop, in the source's
order of checks: `turns >= maxTurns` first (Exhausted), then the
completion flag (Completed), otherwise the unexpected stop (Aborted). -/
inductive Report where
  | exhausted
  | completed
  | stopped
deriving Repr, DecidableEq

/-- The post-loop classification in `main`. -/
def finalReport (s : SessState) : Report :=
  if maxTurns ≤ s.turns then .exhausted
  else if s.isComplete then .completed
  else .stopped

/-- A closed environment for concrete runs: every filesystem and process
oracle fails, no recursion fuel. -/
def envTriv : Env :=
  ⟨fun _ => .error "ENOENT", fun _ => .error "ENOENT",
   fun _ => .error "EACCES", fun _ _ => .error "EACCES",
   fun _ => .failure "spawn failed" "" "", 0⟩

/-! ## Well-formed action blocks

To state the protocol properties quantified over "model responses
containing N well-formed action blocks", blocks are represented
structurally and rendered to the character-level text the model would
emit. -/

/-- One action block: a tag and its child parameter elements. -/
structure Block where
  tag : String
  params : List (String × String)
deriving Repr, DecidableEq

/-- Text of one parameter element `<name>value</name>`. -/
def renderParam (p : String × String) : List Char :=
  '<' :: p.1.toList ++ '>' :: p.2.toList ++ '<' :: '/' :: p.1.toList ++ ['>']

/-- Text of a list of parameter elements. -/
def renderParams : List (String × String) → List Char
  | [] => []
  | p :: ps => renderParam p ++ renderParams ps

/-- Text of one action block `<tag> params </tag>`. -/
def renderBlock (b : Block) : List Char :=
  '<' :: b.tag.toList ++ '>' :: renderParams b.params ++
    '<' :: '/' :: b.tag.toList ++ ['>']

/-- Text of a sequence of action blocks. -/
def renderBlocks : List Block → List Char
  | [] => []
  | b :: bs => renderBlock b ++ renderBlocks bs

/-- A tag the `toolNameRegex` can recognize: nonempty, `[a-z_]` only. -/
def goodTag (s : String) : Prop :=
  s.toList ≠ [] ∧ ∀ c ∈ s.toList, isToolChar c = true

/-- A well-formed parameter element name: a valid XML name (name-start
character then name characters), any letter case. -/
def goodChildName (s : String) : Prop :=
  validName s.toList = true

/-- A well-formed parameter value: no markup and no entity references
inside (so the text passes through the entity decoder verbatim), and
already trimmed (the decoder trims text nodes). -/
def goodValue (v : String) : Prop :=
  (∀ c ∈ v.toList, ¬(c = '<') ∧ ¬(c = '&')) ∧ trimChars v.toList = v.toList

/-- A well-formed action block with a regex-recognizable tag. -/
def goodBlock (b : Block) : Prop :=
  goodTag b.tag ∧ ∀ p ∈ b.params, goodChildName p.1 ∧ goodValue p.2

/-- Modelled from the spec (section 4.4): the Approval Gate rule as the
spec words it — true iff the trimmed, lower-cased operator input equals
"y".  Kept separate from `askForUserApproval` (the source), to compare
the two. -/
def specGateRule (s : String) : Bool :=
  jsToLower (String.mk (trimChars s.toList)) == "y"

instance (s : String) : Decidable (goodTag s) := by
  unfold goodTag
  infer_instance

instance (s : String) : Decidable (goodChildName s) := by
  unfold goodChildName
  infer_instance

instance (v : String) : Decidable (goodValue v) := by
  unfold goodValue
  infer_instance

instance (b : Block) : Decidable (goodBlock b) := by
  unfold goodBlock
  infer_instance

/-! ## Verified properties -/

/-- C1: no filesystem or process side effect of `writeFile` or
`executeCommand` happens unless the Approval Gate returns true for the
operator line of that invocation; on rejection the handler returns an
unsuccessful "cancelled by user" result and performs no side effect
(for `writeFile`, a nonempty trace on rejection means the gate was the
last thing that ran). -/
theorem writeFile_executeCommand_require_approval (env : Env) (op : String)
    (pw : WriteFileParams) (pe : ExecuteCommandParams) :
    (askForUserApproval op = false →
      (writeFile env op pw).2.filter isSideEffect = [] ∧
      ((writeFile env op pw).2 ≠ [] →
        (writeFile env op pw).1 = ⟨false, "Write operation cancelled by user."⟩) ∧
      (executeCommand env op pe).2.filter isSideEffect = [] ∧
      (executeCommand env op pe).1 =
        ⟨false, "Command execution cancelled by user."⟩) ∧
    ((writeFile env op pw).2.any isSideEffect = true →
      askForUserApproval op = true) ∧
    ((executeCommand env op pe).2.any isSideEffect = true →
      askForUserApproval op = true) := by
  obtain ⟨p, c⟩ := pw
  obtain ⟨cmd, ra⟩ := pe
  cases h : askForUserApproval op with
  | true =>
    refine ⟨fun hf => ?_, fun _ => rfl, fun _ => rfl⟩
    exact absurd hf (by decide)
  | false =>
    refine ⟨fun _ => ⟨?_, ?_, ?_, ?_⟩, fun hw => ?_, fun he => ?_⟩
    · cases p with
      | none => simp [writeFile]
      | some p =>
        by_cases hd : hasDotDot p
        · simp [writeFile, hd]
        · cases c with
          | none => simp [writeFile, hd]
          | some c => simp [writeFile, hd, h, isSideEffect]
    · cases p with
      | none => simp [writeFile]
      | some p =>
        by_cases hd : hasDotDot p
        · simp [writeFile, hd]
        · cases c with
          | none => simp [writeFile, hd]
          | some c => simp [writeFile, hd, h]
    · simp [executeCommand, h, isSideEffect]
    · simp [executeCommand, h]
    · exfalso
      cases p with
      | none => simp [writeFile, isSideEffect] at hw
      | some p =>
        by_cases hd : hasDotDot p
        · simp [writeFile, hd, isSideEffect] at hw
        · cases c with
          | none => simp [writeFile, hd, isSideEffect] at hw
          | some c => simp [writeFile, hd, h, isSideEffect] at hw
    · exfalso
      simp [executeCommand, h, isSideEffect] at he

/-- C1 witness: a concrete rejected write and command execution. -/
theorem writeFile_executeCommand_require_approval_witness :
    askForUserApproval "n" = false ∧
    (writeFile envTriv "n" ⟨some "a.txt", some "hi"⟩).2.filter isSideEffect = [] ∧
    (writeFile envTriv "n" ⟨some "a.txt", some "hi"⟩).1 =
      ⟨false, "Write operation cancelled by user."⟩ ∧
    (executeCommand envTriv "n" ⟨some "ls", none⟩).2.filter isSideEffect = [] ∧
    (executeCommand envTriv "n" ⟨some "ls", none⟩).1 =
      ⟨false, "Command execution cancelled by user."⟩ := by
  have h := writeFile_executeCommand_require_approval envTriv "n"
    ⟨some "a.txt", some "hi"⟩ ⟨some "ls", none⟩
  have h0 : askForUserApproval "n" = false := by decide
  obtain ⟨h1, -, -⟩ := h
  obtain ⟨ha, hb, hc, hd⟩ := h1 h0
  exact ⟨h0, ha, hb (by decide), hc, hd⟩

/-- C2: any path containing ".." is rejected by `readFile` and
`writeFile` with the traversal message, before any I/O and before any
approval prompt (the effect trace is empty). -/
theorem traversal_paths_rejected (env : Env) (op : String)
    (content : Option String) (p : String) (h : hasDotDot p = true) :
    readFile env ⟨some p⟩ =
      (⟨false, "Invalid path: Path traversal detected."⟩, []) ∧
    writeFile env op ⟨some p, content⟩ =
      (⟨false, "Invalid path: Path traversal detected."⟩, []) := by
  constructor
  · simp [readFile, h]
  · simp [writeFile, h]

/-- C2 witness: the concrete path "../etc/passwd". -/
theorem traversal_paths_rejected_witness :
    hasDotDot "../etc/passwd" = true ∧
    readFile envTriv ⟨some "../etc/passwd"⟩ =
      (⟨false, "Invalid path: Path traversal detected."⟩, []) ∧
    writeFile envTriv "y" ⟨some "../etc/passwd", some "x"⟩ =
      (⟨false, "Invalid path: Path traversal detected."⟩, []) :=
  ⟨by decide,
   (traversal_paths_rejected envTriv "y" (some "x") "../etc/passwd" (by decide)).1,
   (traversal_paths_rejected envTriv "y" (some "x") "../etc/passwd" (by decide)).2⟩

/-- C4 counterexample: the input " y" trims and lower-cases to "y", so
the claimed rule approves it, but the gate (which does not trim)
rejects it. -/
theorem approval_gate_no_trim_cex :
    specGateRule " y" = true ∧ askForUserApproval " y" = false := by decide

/-- C4 amended: the gate returns true iff the lower-cased — but NOT
trimmed — input equals "y"; every other input, including empty input
and whitespace-padded "y", is rejected, with no retry. -/
theorem approval_gate_lowercase_eq (s : String) :
    (askForUserApproval s = true ↔ jsToLower s = "y") ∧
    askForUserApproval "y" = true ∧
    askForUserApproval "Y" = true ∧
    askForUserApproval "" = false ∧
    askForUserApproval "yes" = false ∧
    askForUserApproval " y" = false := by
  refine ⟨?_, by decide, by decide, by decide, by decide, by decide⟩
  simp [askForUserApproval]

/-- C9 counterexample: `complete` invoked with its required `result`
parameter absent returns a successful result (rendering the missing
value as "undefined"), and `askQuestion` with `question` absent also
succeeds — neither rejects with a validation failure. -/
theorem complete_missing_param_succeeds_cex :
    (complete ⟨none⟩).1 = ⟨true, "Task completed: undefined"⟩ ∧
    (askQuestion "an answer" ⟨none⟩).1.success = true := by decide

/-- C9 amended: validation of absent required parameters is uneven.
`readFile`/`writeFile` reject an absent path only through a caught
TypeError surfaced as an unsuccessful result (no I/O, no prompt);
`executeCommand` with an absent command still prompts but never
succeeds (the exec TypeError is caught); `askQuestion` and `complete`
do not reject at all and return successful results. -/
theorem missing_param_handler_behavior (env : Env) (op : String)
    (c ra : Option String) :
    readFile env ⟨none⟩ =
      (⟨false, "Failed to read file: Cannot read properties of undefined (reading 'includes')"⟩, []) ∧
    writeFile env op ⟨none, c⟩ =
      (⟨false, "Failed to write file: Cannot read properties of undefined (reading 'includes')"⟩, []) ∧
    (executeCommand env op ⟨none, ra⟩).1.success = false ∧
    (executeCommand env op ⟨none, ra⟩).2.any isSideEffect = false ∧
    (askQuestion op ⟨none⟩).1.success = true ∧
    (complete ⟨none⟩).1.success = true := by
  refine ⟨rfl, rfl, ?_, ?_, rfl, rfl⟩ <;>
    cases h : askForUserApproval op <;> simp [executeCommand, h, isSideEffect]

/-- C10: `executeCommand` never reads `requires_approval` — its result
and effects are identical for any two values of that parameter — and
the approval prompt is always issued first, even when the model sets
`requires_approval` to "false"; on rejection nothing but the prompt
happens. -/
theorem requires_approval_param_ignored (env : Env) (op : String)
    (cmd ra₁ ra₂ : Option String) :
    executeCommand env op ⟨cmd, ra₁⟩ = executeCommand env op ⟨cmd, ra₂⟩ ∧
    (executeCommand env op ⟨cmd, some "false"⟩).2.head? =
      some (.promptUser (execConfirmMsg cmd)) ∧
    (askForUserApproval op = false →
      executeCommand env op ⟨cmd, some "false"⟩ =
        (⟨false, "Command execution cancelled by user."⟩,
         [.promptUser (execConfirmMsg cmd)])) := by
  refine ⟨rfl, ?_, fun h => by simp [executeCommand, h]⟩
  cases h : askForUserApproval op with
  | false => simp [executeCommand, h]
  | true =>
    cases cmd with
    | none => simp [executeCommand, h]
    | some cmd => cases henv : env.exec cmd <;> simp [executeCommand, h, henv]

/-- C10 witness: a concrete rejected command with
`requires_approval = "false"`. -/
theorem requires_approval_param_ignored_witness :
    askForUserApproval "n" = false ∧
    executeCommand envTriv "n" ⟨some "rm -rf /", some "false"⟩ =
      (⟨false, "Command execution cancelled by user."⟩,
       [.promptUser (execConfirmMsg (some "rm -rf /"))]) :=
  ⟨by decide,
   (requires_approval_param_ignored envTriv "n" (some "rm -rf /")
     (some "false") none).2.2 (by decide)⟩

/-- Each loop iteration increments the turn counter by exactly one (one
`chat.sendMessage` call per iteration). -/
theorem loopIter_turns (env : Env) (replies : Nat → ModelReply)
    (ops : Nat → String) (s : SessState) :
    (loopIter env replies ops s).turns = s.turns + 1 := by
  unfold loopIter
  dsimp only
  split <;> split <;> rfl

/-- The loop never pushes the turn counter past `maxTurns`. -/
theorem runAux_turns_le (env : Env) (replies : Nat → ModelReply)
    (ops : Nat → String) (f : Nat) (s : SessState)
    (h : s.turns ≤ maxTurns) :
    (runAux env replies ops f s).turns ≤ maxTurns := by
  induction f generalizing s with
  | zero => exact h
  | succ f ih =>
    unfold runAux
    by_cases hg : loopGuard s = true
    · rw [if_pos hg]
      apply ih
      have hlt : s.turns < maxTurns := by
        unfold loopGuard at hg
        simp only [Bool.and_eq_true, decide_eq_true_eq] at hg
        exact hg.1.2
      rw [loopIter_turns]
      omega
    · rw [if_neg hg]
      exact h

/-- C3: the session issues at most `maxTurns` (15) model calls (the
final turn counter equals the number of `sendMessage` calls), and a
session that reaches the cap is reported Exhausted — never Completed —
independently of the completion flag. -/
theorem session_turn_budget (env : Env) (replies : Nat → ModelReply)
    (ops : Nat → String) (task : String) :
    (mainLoop env replies ops task).turns ≤ maxTurns ∧
    (maxTurns ≤ (mainLoop env replies ops task).turns →
      finalReport (mainLoop env replies ops task) = .exhausted ∧
      finalReport (mainLoop env replies ops task) ≠ .completed) := by
  constructor
  · exact runAux_turns_le env replies ops maxTurns (initState task) (by simp [initState])
  · intro h
    constructor <;> simp [finalReport, h]

/-- C3 witness: a session whose model always replies with an empty,
unblocked response runs exactly 15 turns without completing and is
reported Exhausted. -/
theorem session_turn_budget_witness :
    (mainLoop envTriv (fun _ => ModelReply.emptyReply none) (fun _ => "") "t").turns ≤ maxTurns ∧
    (mainLoop envTriv (fun _ => ModelReply.emptyReply none) (fun _ => "") "t").isComplete = false ∧
    finalReport (mainLoop envTriv (fun _ => ModelReply.emptyReply none) (fun _ => "") "t") = .exhausted ∧
    finalReport (mainLoop envTriv (fun _ => ModelReply.emptyReply none) (fun _ => "") "t") ≠ .completed := by
  have h := session_turn_budget envTriv (fun _ => ModelReply.emptyReply none) (fun _ => "") "t"
  exact ⟨h.1, by decide, (h.2 (by decide)).1, (h.2 (by decide)).2⟩

/-- C6, evaluated at the failing input: when the first model call throws
a fault whose message contains "SAFETY", the loop makes no further model
calls (turns stays 1) but the source sets the completion flag, so the
final summary reports Completed — not Aborted.  By contrast the
empty-response SAFETY block `break`s correctly into the Aborted
("stopped") report. -/
theorem safety_fault_reported_completed :
    (mainLoop envTriv (fun _ => ModelReply.fault "blocked by SAFETY") (fun _ => "") "t").turns = 1 ∧
    finalReport (mainLoop envTriv (fun _ => ModelReply.fault "blocked by SAFETY") (fun _ => "") "t") = .completed ∧
    (mainLoop envTriv (fun _ => ModelReply.emptyReply (some "SAFETY")) (fun _ => "") "t").turns = 1 ∧
    finalReport (mainLoop envTriv (fun _ => ModelReply.emptyReply (some "SAFETY")) (fun _ => "") "t") = .stopped := by
  decide

/-- C8 counterexample: the literal self-closing `<unknown_tool/>` is not
matched by `toolNameRegex` (which requires `<name>`), so the turn is a
decode failure with `toolType: null`, and the next outbound message is
prefixed `[Execution Result]`, not `[unknown_tool Result]`. -/
theorem selfclosing_unknown_tool_cex :
    parseAndExecuteTool envTriv "" "<unknown_tool/>" =
      ⟨⟨false, "No valid tool tag found in the cleaned response."⟩, none, false, [], []⟩ ∧
    (loopIter envTriv (fun _ => ModelReply.text "<unknown_tool/>") (fun _ => "")
      (initState "t")).messageToSend =
      some "[Execution Result] Failure:\nNo valid tool tag found in the cleaned response." ∧
    ("[unknown_tool Result] Failure:".toList.isPrefixOf
      "[Execution Result] Failure:\nNo valid tool tag found in the cleaned response.".toList) = false ∧
    (loopIter envTriv (fun _ => ModelReply.text "<unknown_tool/>") (fun _ => "")
      (initState "t")).turns = 1 := by
  decide

/-- C8 amended: with the paired form `<unknown_tool></unknown_tool>`
the dispatcher returns the UnknownAction failure without executing any
handler, the next outbound message is exactly
`[unknown_tool Result] Failure:` + newline + the failure message, the
turn counter increments by exactly 1, and the session does not
terminate (the loop guard still holds). -/
theorem unknown_tool_paired_tag_turn :
    parseAndExecuteTool envTriv "" "<unknown_tool></unknown_tool>" =
      ⟨⟨false, "Unknown tool type: unknown_tool"⟩, some "unknown_tool", false, [], []⟩ ∧
    loopIter envTriv (fun _ => ModelReply.text "<unknown_tool></unknown_tool>")
      (fun _ => "") (initState "t") =
      ⟨1, false, some "[unknown_tool Result] Failure:\nUnknown tool type: unknown_tool", false⟩ ∧
    loopGuard (loopIter envTriv (fun _ => ModelReply.text "<unknown_tool></unknown_tool>")
      (fun _ => "") (initState "t")) = true := by
  decide

theorem tw_append_all {p : Char → Bool} {l₁ : List Char} (l₂ : List Char)
    (h : ∀ a ∈ l₁, p a = true) :
    (l₁ ++ l₂).takeWhile p = l₁ ++ l₂.takeWhile p := by
  induction l₁ with
  | nil => rfl
  | cons a l ih =>
    have ha : p a = true := h a (by simp)
    simp only [List.cons_append, List.takeWhile_cons_of_pos ha,
      ih (fun b hb => h b (by simp [hb]))]

theorem dw_append_all {p : Char → Bool} {l₁ : List Char} (l₂ : List Char)
    (h : ∀ a ∈ l₁, p a = true) :
    (l₁ ++ l₂).dropWhile p = l₂.dropWhile p := by
  induction l₁ with
  | nil => rfl
  | cons a l ih =>
    have ha : p a = true := h a (by simp)
    simp only [List.cons_append, List.dropWhile_cons_of_pos ha,
      ih (fun b hb => h b (by simp [hb]))]

theorem scan_name {n : List Char} (R : List Char)
    (hn : ∀ c ∈ n, isNameChar c = true) :
    (n ++ '>' :: R).takeWhile isNameChar = n ∧
    (n ++ '>' :: R).dropWhile isNameChar = '>' :: R := by
  constructor
  · rw [tw_append_all _ hn, List.takeWhile_cons_of_neg (by decide)]
    simp
  · rw [dw_append_all _ hn, List.dropWhile_cons_of_neg (by decide)]

theorem scan_tool {n : List Char} (R : List Char)
    (hn : ∀ c ∈ n, isToolChar c = true) :
    (n ++ '>' :: R).takeWhile isToolChar = n ∧
    (n ++ '>' :: R).dropWhile isToolChar = '>' :: R := by
  constructor
  · rw [tw_append_all _ hn, List.takeWhile_cons_of_neg (by decide)]
    simp
  · rw [dw_append_all _ hn, List.dropWhile_cons_of_neg (by decide)]

theorem scan_text {v : List Char} (R : List Char) (hv : ∀ c ∈ v, ¬(c = '<')) :
    (v ++ '<' :: R).takeWhile (fun c => !(c == '<')) = v ∧
    (v ++ '<' :: R).dropWhile (fun c => !(c == '<')) = '<' :: R := by
  have hv2 : ∀ c ∈ v, (fun c => !(c == '<')) c = true := by
    intro c hc
    simp [hv c hc]
  constructor
  · rw [tw_append_all _ hv2, List.takeWhile_cons_of_neg (by decide)]
    simp
  · rw [dw_append_all _ hv2, List.dropWhile_cons_of_neg (by decide)]

theorem strMk_toList (s : String) : String.mk s.toList = s := rfl

theorem isWs_false_of_97 {c : Char} (h : 97 ≤ c.toNat) : isWs c = false := by
  have hs : ¬ c = ' ' := fun e => by subst e; exact absurd h (by decide)
  have ht : ¬ c = '\t' := fun e => by subst e; exact absurd h (by decide)
  have hr : ¬ c = '\r' := fun e => by subst e; exact absurd h (by decide)
  have hn : ¬ c = '\n' := fun e => by subst e; exact absurd h (by decide)
  simp [isWs, Char.isWhitespace, hs, ht, hr, hn]

theorem nameChar_range {c : Char} (h1 : 97 ≤ c.toNat) (h2 : c.toNat ≤ 122) :
    isNameChar c = true := by
  have e60 : ¬ c = '<' := fun e => by subst e; exact absurd h1 (by decide)
  have e62 : ¬ c = '>' := fun e => by subst e; exact absurd h1 (by decide)
  have e47 : ¬ c = '/' := fun e => by subst e; exact absurd h1 (by decide)
  simp [isNameChar, e60, e62, e47, isWs_false_of_97 h1]

theorem toolChar_nameChar {c : Char} (h : isToolChar c = true) :
    isNameChar c = true := by
  simp only [isToolChar, Bool.or_eq_true, Bool.and_eq_true,
    decide_eq_true_eq, beq_iff_eq] at h
  rcases h with ⟨h1, h2⟩ | h
  · exact nameChar_range h1 h2
  · subst h; decide

theorem isNameChar_of_ranges {c : Char}
    (h : (65 ≤ c.toNat ∧ c.toNat ≤ 90) ∨ (97 ≤ c.toNat ∧ c.toNat ≤ 122) ∨
         (48 ≤ c.toNat ∧ c.toNat ≤ 57) ∨ c.toNat = 95 ∨ c.toNat = 45 ∨
         c.toNat = 46) :
    isNameChar c = true := by
  have h60 : ¬ c = '<' := fun e => by rw [e] at h; exact absurd h (by decide)
  have h62 : ¬ c = '>' := fun e => by rw [e] at h; exact absurd h (by decide)
  have h47 : ¬ c = '/' := fun e => by rw [e] at h; exact absurd h (by decide)
  have hs : ¬ c = ' ' := fun e => by rw [e] at h; exact absurd h (by decide)
  have ht : ¬ c = '\t' := fun e => by rw [e] at h; exact absurd h (by decide)
  have hr : ¬ c = '\r' := fun e => by rw [e] at h; exact absurd h (by decide)
  have hn : ¬ c = '\n' := fun e => by rw [e] at h; exact absurd h (by decide)
  simp [isNameChar, isWs, Char.isWhitespace, h60, h62, h47, hs, ht, hr, hn]

theorem isNameStart_body {c : Char} (h : isNameStart c = true) :
    isNameBody c = true := by
  simp [isNameBody, h]

theorem toolChar_nameStart {c : Char} (h : isToolChar c = true) :
    isNameStart c = true := by
  simp only [isToolChar, Bool.or_eq_true, Bool.and_eq_true,
    decide_eq_true_eq, beq_iff_eq] at h
  rcases h with ⟨h1, h2⟩ | h
  · simp only [isNameStart, Bool.or_eq_true, Bool.and_eq_true,
      decide_eq_true_eq, beq_iff_eq]
    exact Or.inl (Or.inr ⟨h1, h2⟩)
  · subst h
    decide

theorem nameBody_nameChar {c : Char} (h : isNameBody c = true) :
    isNameChar c = true := by
  simp only [isNameBody, isNameStart, Bool.or_eq_true, Bool.and_eq_true,
    decide_eq_true_eq, beq_iff_eq] at h
  rcases h with ((((h | h) | h) | h) | h) | h
  · exact isNameChar_of_ranges (Or.inl h)
  · exact isNameChar_of_ranges (Or.inr (Or.inl h))
  · subst h
    decide
  · exact isNameChar_of_ranges (Or.inr (Or.inr (Or.inl h)))
  · subst h
    decide
  · subst h
    decide

theorem validName_ne_nil {l : List Char} (h : validName l = true) : l ≠ [] := by
  intro e
  rw [e] at h
  exact absurd h (by decide)

theorem validName_all_nameChar {l : List Char} (h : validName l = true) :
    ∀ c ∈ l, isNameChar c = true := by
  match l with
  | [] => exact absurd h (by decide)
  | c :: cs =>
    simp only [validName, Bool.and_eq_true, List.all_eq_true] at h
    intro d hd
    rcases List.mem_cons.mp hd with rfl | hd
    · exact nameBody_nameChar (isNameStart_body h.1)
    · exact nameBody_nameChar (h.2 d hd)

theorem validName_toolTag {s : String} (hne : s.toList ≠ [])
    (htc : ∀ c ∈ s.toList, isToolChar c = true) :
    validName s.toList = true := by
  cases hl : s.toList with
  | nil => exact absurd hl hne
  | cons c cs =>
    have hstart : isNameStart c = true :=
      toolChar_nameStart (htc c (by rw [hl]; simp))
    have hbody : ∀ d ∈ cs, isNameBody d = true := fun d hd =>
      isNameStart_body (toolChar_nameStart (htc d (by rw [hl]; simp [hd])))
    simp only [validName, Bool.and_eq_true, List.all_eq_true]
    exact ⟨hstart, hbody⟩

theorem decodeEntities_noamp {l : List Char} (h : ∀ c ∈ l, ¬(c = '&')) :
    decodeEntities l = .ok l := by
  unfold decodeEntities
  induction l with
  | nil => rfl
  | cons c cs ih =>
    have hc : ¬((c == '&') = true) := by
      simp only [beq_iff_eq]
      exact h c (by simp)
    unfold decodeEntitiesAux
    rw [if_neg hc]
    rw [ih (fun d hd => h d (by simp [hd]))]

theorem jsCharLower_toolChar {c : Char} (h : isToolChar c = true) :
    jsCharLower c = c := by
  simp only [isToolChar, Bool.or_eq_true, Bool.and_eq_true,
    decide_eq_true_eq, beq_iff_eq] at h
  rcases h with ⟨h1, _⟩ | h
  · unfold jsCharLower
    rw [if_neg]
    omega
  · subst h; decide

theorem map_lower_fixed {l : List Char} (h : ∀ c ∈ l, isToolChar c = true) :
    l.map jsCharLower = l := by
  induction l with
  | nil => rfl
  | cons a l ih =>
    simp only [List.map_cons, jsCharLower_toolChar (h a (by simp)),
      ih (fun b hb => h b (by simp [hb]))]

theorem jsToLower_tag_fixed {s : String} (h : ∀ c ∈ s.toList, isToolChar c = true) :
    jsToLower s = s := by
  unfold jsToLower
  rw [map_lower_fixed h, strMk_toList]

theorem parseChild_render (n v : String) (rest : List Char)
    (hn : goodChildName n) (hv : goodValue v) :
    parseChild (renderParam (n, v) ++ rest) = .ok ((jsToLower n, v), rest) := by
  obtain ⟨hvca, hvt⟩ := hv
  have hnc : ∀ c ∈ n.toList, isNameChar c = true := validName_all_nameChar hn
  have hvc : ∀ c ∈ v.toList, ¬(c = '<') := fun c hc => (hvca c hc).1
  have hva : ∀ c ∈ v.toList, ¬(c = '&') := fun c hc => (hvca c hc).2
  have hshape : renderParam (n, v) ++ rest =
      '<' :: (n.toList ++ '>' :: (v.toList ++ '<' :: '/' :: (n.toList ++ '>' :: rest))) := by
    simp [renderParam]
  rw [hshape]
  unfold parseChild
  dsimp only
  rw [if_pos (show (('<' : Char) == '<') = true from rfl)]
  rw [(scan_name _ hnc).1, (scan_name _ hnc).2, hn]
  rw [if_pos (show (true = true) from rfl)]
  dsimp only
  rw [if_neg (show ¬((('>' : Char) == '/') = true) from by decide)]
  rw [if_pos (show (('>' : Char) == '>') = true from rfl)]
  rw [(scan_text _ hvc).1, (scan_text _ hvc).2]
  dsimp only
  simp only [List.head?_cons, List.tail_cons]
  rw [if_pos (show ((some '/' == some '/') = true) from rfl)]
  rw [(scan_name _ hnc).1, (scan_name _ hnc).2]
  rw [if_pos (show ((n.toList == n.toList) = true) from by simp)]
  dsimp only
  rw [if_pos (show (('>' : Char) == '>') = true from rfl)]
  rw [decodeEntities_noamp hva]
  dsimp only
  rw [hvt]
  rfl

theorem parseChildren_render (ps : List (String × String)) :
    ∀ (fuel : Nat) (r' : List Char),
    (∀ p ∈ ps, goodChildName p.1 ∧ goodValue p.2) →
    ps.length < fuel →
    parseChildren fuel (renderParams ps ++ '<' :: '/' :: r') =
      .ok (ps.map (fun p => (jsToLower p.1, p.2)), '<' :: '/' :: r') := by
  induction ps with
  | nil =>
    intro fuel r' _ hf
    obtain ⟨f, rfl⟩ : ∃ f, fuel = f + 1 := ⟨fuel - 1, by omega⟩
    show parseChildren (f + 1) ([] ++ '<' :: '/' :: r') = _
    rw [List.nil_append]
    unfold parseChildren
    rw [List.dropWhile_cons_of_neg (by decide)]
    dsimp only
    rw [if_pos (show (('<' : Char) == '<') = true from rfl)]
    simp only [List.head?_cons]
    rw [if_pos (show ((some '/' == some '/') = true) from rfl)]
    rfl
  | cons p ps ih =>
    intro fuel r' hg hf
    obtain ⟨f, rfl⟩ : ∃ f, fuel = f + 1 := ⟨fuel - 1, by omega⟩
    obtain ⟨hn, hv⟩ := hg p (by simp)
    have hne : p.1.toList ≠ [] := validName_ne_nil hn
    have hnc : ∀ c ∈ p.1.toList, isNameChar c = true := validName_all_nameChar hn
    obtain ⟨c0, n', hc⟩ : ∃ c0 n', p.1.toList = c0 :: n' := by
      cases h : p.1.toList with
      | nil => exact absurd h hne
      | cons a l => exact ⟨a, l, rfl⟩
    have hc0 : isNameChar c0 = true := hnc c0 (by rw [hc]; simp)
    have hcd : p.1.data = c0 :: n' := hc
    have hslash : ¬((some c0 == some '/') = true) := by
      simp only [beq_iff_eq, Option.some.injEq]
      intro e
      rw [e] at hc0
      exact absurd hc0 (by decide)
    have hshape : renderParams (p :: ps) ++ '<' :: '/' :: r' =
        '<' :: c0 :: (n' ++ '>' :: (p.2.toList ++ '<' :: '/' ::
          (p.1.toList ++ '>' :: (renderParams ps ++ '<' :: '/' :: r')))) := by
      simp [renderParams, renderParam, hc, hcd]
    rw [hshape]
    unfold parseChildren
    rw [List.dropWhile_cons_of_neg (by decide)]
    dsimp only
    rw [if_pos (show (('<' : Char) == '<') = true from rfl)]
    simp only [List.head?_cons]
    rw [if_neg hslash]
    have hback : ('<' : Char) :: c0 :: (n' ++ '>' :: (p.2.toList ++ '<' :: '/' ::
        (p.1.toList ++ '>' :: (renderParams ps ++ '<' :: '/' :: r')))) =
        renderParam (p.1, p.2) ++ (renderParams ps ++ '<' :: '/' :: r') := by
      simp [renderParam, hc, hcd]
    rw [hback, parseChild_render p.1 p.2 _ hn hv]
    dsimp only
    have hf' : ps.length < f := by
      simp only [List.length_cons] at hf
      omega
    rw [ih f r' (fun q hq => hg q (by simp [hq])) hf']
    rfl

theorem parseElem_render (tg : String) (prms : List (String × String))
    (fuel : Nat) (rest : List Char)
    (hb : goodBlock ⟨tg, prms⟩) (hfuel : prms.length < fuel) :
    parseElem fuel (renderBlock ⟨tg, prms⟩ ++ rest) =
      .ok (⟨jsToLower tg, prms.map (fun p => (jsToLower p.1, p.2)), ""⟩, rest) := by
  obtain ⟨⟨hne, htc⟩, hps⟩ := hb
  have hnc : ∀ c ∈ tg.toList, isNameChar c = true :=
    fun c hc => toolChar_nameChar (htc c hc)
  have hvn : validName tg.toList = true := validName_toolTag hne htc
  cases prms with
  | nil =>
    have hshape : renderBlock ⟨tg, []⟩ ++ rest =
        '<' :: (tg.toList ++ '>' :: ('<' :: '/' :: (tg.toList ++ '>' :: rest))) := by
      simp [renderBlock, renderParams]
    rw [hshape]
    unfold parseElem
    dsimp only
    rw [if_pos (show (('<' : Char) == '<') = true from rfl)]
    rw [(scan_name _ hnc).1, (scan_name _ hnc).2, hvn]
    rw [if_pos (show (true = true) from rfl)]
    dsimp only
    rw [if_neg (show ¬((('>' : Char) == '/') = true) from by decide)]
    rw [if_pos (show (('>' : Char) == '>') = true from rfl)]
    rw [List.takeWhile_cons_of_neg (by decide), List.dropWhile_cons_of_neg (by decide)]
    dsimp only
    simp only [List.head?_cons, List.tail_cons]
    rw [if_pos (show ((some '/' == some '/') = true) from rfl)]
    rw [(scan_name _ hnc).1, (scan_name _ hnc).2]
    rw [if_pos (show ((tg.toList == tg.toList) = true) from by simp)]
    dsimp only
    rw [if_pos (show (('>' : Char) == '>') = true from rfl)]
    rfl
  | cons p ps =>
    obtain ⟨hpn, hpv⟩ := hps p (by simp)
    have hpne : p.1.toList ≠ [] := validName_ne_nil hpn
    obtain ⟨c0, n', hc⟩ : ∃ c0 n', p.1.toList = c0 :: n' := by
      cases h : p.1.toList with
      | nil => exact absurd h hpne
      | cons a l => exact ⟨a, l, rfl⟩
    have hc0 : isNameChar c0 = true :=
      validName_all_nameChar hpn c0 (by rw [hc]; simp)
    have hcd : p.1.data = c0 :: n' := hc
    have hslash : ¬((some c0 == some '/') = true) := by
      simp only [beq_iff_eq, Option.some.injEq]
      intro e
      rw [e] at hc0
      exact absurd hc0 (by decide)
    have hshape : renderBlock ⟨tg, p :: ps⟩ ++ rest =
        '<' :: (tg.toList ++ '>' :: ('<' :: c0 :: (n' ++ '>' :: (p.2.toList ++ '<' :: '/' ::
          (p.1.toList ++ '>' :: (renderParams ps ++ '<' :: '/' ::
            (tg.toList ++ '>' :: rest))))))) := by
      simp [renderBlock, renderParams, renderParam, hc, hcd]
    rw [hshape]
    unfold parseElem
    dsimp only
    rw [if_pos (show (('<' : Char) == '<') = true from rfl)]
    rw [(scan_name _ hnc).1, (scan_name _ hnc).2, hvn]
    rw [if_pos (show (true = true) from rfl)]
    dsimp only
    rw [if_neg (show ¬((('>' : Char) == '/') = true) from by decide)]
    rw [if_pos (show (('>' : Char) == '>') = true from rfl)]
    rw [List.takeWhile_cons_of_neg (by decide), List.dropWhile_cons_of_neg (by decide)]
    dsimp only
    simp only [List.head?_cons]
    rw [if_neg hslash]
    rw [if_pos (show ((trimChars ([] : List Char)).isEmpty = true) from rfl)]
    have hback : ('<' : Char) :: c0 :: (n' ++ '>' :: (p.2.toList ++ '<' :: '/' ::
        (p.1.toList ++ '>' :: (renderParams ps ++ '<' :: '/' ::
          (tg.toList ++ '>' :: rest))))) =
        renderParams (p :: ps) ++ '<' :: '/' :: (tg.toList ++ '>' :: rest) := by
      simp [renderParams, renderParam, hc, hcd]
    rw [hback]
    rw [parseChildren_render (p :: ps) fuel (tg.toList ++ '>' :: rest) hps hfuel]
    dsimp only
    simp only [List.head?_cons, List.tail_cons]
    rw [if_pos (show ((('<' : Char) == '<') && (some '/' == some '/')) = true from rfl)]
    rw [(scan_name _ hnc).1, (scan_name _ hnc).2]
    rw [if_pos (show ((tg.toList == tg.toList) = true) from by simp)]
    dsimp only
    rw [if_pos (show (('>' : Char) == '>') = true from rfl)]
    rfl



theorem renderParams_len (ps : List (String × String)) :
    ps.length ≤ (renderParams ps).length := by
  induction ps with
  | nil => simp [renderParams]
  | cons p ps ih =>
    simp only [renderParams, List.length_append, List.length_cons]
    have h1 : 1 ≤ (renderParam p).length := by
      simp [renderParam]
    omega

theorem renderBlock_len (b : Block) :
    b.params.length < (renderBlock b).length := by
  have h := renderParams_len b.params
  simp only [renderBlock, List.length_cons, List.length_append]
  omega

theorem trimChars_id {x y : Char} {X Y : List Char} (hxy : x :: X = Y ++ [y])
    (hx : isWs x = false) (hy : isWs y = false) :
    trimChars (x :: X) = x :: X := by
  unfold trimChars trimLeft trimRight
  rw [List.dropWhile_cons_of_neg (by simp [hx])]
  rw [hxy, List.reverse_append]
  simp only [List.reverse_cons, List.reverse_nil, List.nil_append, List.cons_append]
  rw [List.dropWhile_cons_of_neg (by simp [hy])]
  simp only [List.reverse_cons, List.reverse_reverse]

theorem startsFence_false {x : Char} (X : List Char)
    (h : (x == fenceChar) = false) : startsWithFence (x :: X) = false := by
  cases X with
  | nil => rfl
  | cons a Y =>
    cases Y with
    | nil => rfl
    | cons b Z => simp [startsWithFence, h]

theorem cleanChars_id {x y : Char} {X Y : List Char} (hxy : x :: X = Y ++ [y])
    (hx : isWs x = false) (hy : isWs y = false)
    (hxf : (x == fenceChar) = false) (hyf : (y == fenceChar) = false) :
    cleanChars (x :: X) = x :: X := by
  have htrim := trimChars_id hxy hx hy
  unfold cleanChars
  rw [htrim]
  have hlead : stripLeadingFence (x :: X) = x :: X := by
    unfold stripLeadingFence
    rw [startsFence_false X hxf]
    simp
  rw [hlead]
  have htrail : stripTrailingFence (x :: X) = x :: X := by
    unfold stripTrailingFence
    rw [hxy, List.reverse_append]
    simp only [List.reverse_cons, List.reverse_nil, List.nil_append, List.cons_append]
    rw [List.dropWhile_cons_of_neg (by simp [hy])]
    rw [startsFence_false _ hyf]
    simp
  rw [htrail, htrim]



theorem renderBlock_head (tg : String) (prms : List (String × String)) :
    renderBlock ⟨tg, prms⟩ =
      '<' :: (tg.toList ++ '>' :: (renderParams prms ++ '<' :: '/' :: (tg.toList ++ ['>']))) := by
  simp [renderBlock]

theorem renderBlock_last (tg : String) (prms : List (String × String)) :
    renderBlock ⟨tg, prms⟩ =
      ('<' :: tg.toList ++ '>' :: renderParams prms ++ '<' :: '/' :: tg.toList) ++ ['>'] := by
  simp [renderBlock]

theorem renderBlocks_last (b : Block) (bs : List Block) :
    ∃ Y, renderBlocks (b :: bs) = Y ++ ['>'] := by
  induction bs generalizing b with
  | nil =>
    refine ⟨'<' :: b.tag.toList ++ '>' :: renderParams b.params ++ '<' :: '/' :: b.tag.toList, ?_⟩
    show renderBlock b ++ renderBlocks [] = _
    rw [show renderBlocks [] = [] from rfl, List.append_nil]
    obtain ⟨tg, prms⟩ := b
    exact renderBlock_last tg prms
  | cons b₂ bs ih =>
    obtain ⟨Y, hY⟩ := ih b₂
    refine ⟨renderBlock b ++ Y, ?_⟩
    show renderBlock b ++ renderBlocks (b₂ :: bs) = _
    rw [hY, List.append_assoc]

theorem cleanChars_renderBlocks (b : Block) (bs : List Block) :
    cleanChars (renderBlocks (b :: bs)) = renderBlocks (b :: bs) := by
  obtain ⟨Y, hY⟩ := renderBlocks_last b bs
  obtain ⟨tg, prms⟩ := b
  have hhead : renderBlocks (⟨tg, prms⟩ :: bs) =
      '<' :: (tg.toList ++ '>' :: (renderParams prms ++ '<' :: '/' :: (tg.toList ++ ['>'])) ++ renderBlocks bs) := by
    show renderBlock ⟨tg, prms⟩ ++ renderBlocks bs = _
    rw [renderBlock_head]
    simp
  rw [hhead]
  rw [hhead] at hY
  exact cleanChars_id hY (by decide) (by decide) (by decide) (by decide)

theorem findTool_block {tg : String} (R : List Char)
    (h : goodTag tg) :
    findTool ('<' :: (tg.toList ++ '>' :: R)) = some tg := by
  obtain ⟨hne, htc⟩ := h
  have hie : (tg.toList).isEmpty = false := by
    cases hh : tg.toList with
    | nil => exact absurd hh hne
    | cons a l => rfl
  unfold findTool
  rw [if_pos (show (('<' : Char) == '<') = true from rfl)]
  rw [(scan_tool _ htc).1, (scan_tool _ htc).2]
  rw [if_pos (by rw [hie]; rfl)]
  rw [strMk_toList]

theorem parseDoc_render (tg : String) (prms : List (String × String))
    (rest : List Char) (hb : goodBlock ⟨tg, prms⟩) :
    parseDoc (renderBlock ⟨tg, prms⟩ ++ rest) =
      .ok ⟨jsToLower tg, prms.map (fun p => (jsToLower p.1, p.2)), ""⟩ := by
  unfold parseDoc
  dsimp only
  rw [renderBlock_head tg prms]
  have hcons : ('<' :: (tg.toList ++ '>' :: (renderParams prms ++ '<' :: '/' :: (tg.toList ++ ['>'])))) ++ rest =
      '<' :: ((tg.toList ++ '>' :: (renderParams prms ++ '<' :: '/' :: (tg.toList ++ ['>']))) ++ rest) := by
    simp
  rw [hcons]
  rw [List.dropWhile_cons_of_neg (by decide)]
  rw [← hcons, ← renderBlock_head tg prms]
  rw [parseElem_render tg prms _ rest hb
    (by
      have h2 : prms.length < (renderBlock ⟨tg, prms⟩).length :=
        renderBlock_len ⟨tg, prms⟩
      simp only [List.length_append]
      omega)]



theorem dispatched_le_one (env : Env) (op s : String) :
    (parseAndExecuteTool env op s).dispatched.length ≤ 1 := by
  unfold parseAndExecuteTool
  cases decodeInvocation s with
  | error m => exact Nat.zero_le 1
  | ok inv =>
    dsimp only
    split <;> first | exact Nat.le_refl 1 | exact Nat.zero_le 1

theorem decodeInvocation_render_first (tg : String) (prms : List (String × String))
    (bs : List Block) (hb : goodBlock ⟨tg, prms⟩) :
    decodeInvocation (String.mk (renderBlocks (⟨tg, prms⟩ :: bs))) =
      .ok ⟨tg, prms.map (fun p => (jsToLower p.1, p.2))⟩ := by
  obtain ⟨⟨hne, htc⟩, hps⟩ := hb
  have hb₂ : goodBlock ⟨tg, prms⟩ := ⟨⟨hne, htc⟩, hps⟩
  unfold decodeInvocation
  dsimp only
  have htl : (String.mk (renderBlocks (⟨tg, prms⟩ :: bs))).toList =
      renderBlocks (⟨tg, prms⟩ :: bs) := rfl
  rw [htl]
  rw [cleanChars_renderBlocks ⟨tg, prms⟩ bs]
  have hshape : renderBlocks (⟨tg, prms⟩ :: bs) =
      '<' :: (tg.toList ++ '>' :: (renderParams prms ++ '<' :: '/' ::
        (tg.toList ++ '>' :: renderBlocks bs))) := by
    show renderBlock ⟨tg, prms⟩ ++ renderBlocks bs = _
    simp [renderBlock]
  rw [hshape]
  rw [if_neg (show ¬((('<' :: (tg.toList ++ '>' :: (renderParams prms ++ '<' :: '/' :: (tg.toList ++ '>' :: renderBlocks bs)))).isEmpty) = true) from by simp)]
  rw [findTool_block _ ⟨hne, htc⟩]
  rw [← hshape]
  rw [show renderBlocks (⟨tg, prms⟩ :: bs) = renderBlock ⟨tg, prms⟩ ++ renderBlocks bs from rfl]
  rw [parseDoc_render tg prms (renderBlocks bs) hb₂]
  dsimp only
  rw [jsToLower_tag_fixed htc]
  rw [if_pos (show ((tg == tg) = true) from by simp)]

theorem decodeInvocation_render_single (tg : String) (prms : List (String × String))
    (hb : goodBlock ⟨tg, prms⟩) :
    decodeInvocation (String.mk (renderBlock ⟨tg, prms⟩)) =
      .ok ⟨tg, prms.map (fun p => (jsToLower p.1, p.2))⟩ := by
  have h := decodeInvocation_render_first tg prms [] hb
  rw [show renderBlocks [(⟨tg, prms⟩ : Block)] = renderBlock ⟨tg, prms⟩ from by
    show renderBlock _ ++ renderBlocks [] = _
    rw [show renderBlocks [] = [] from rfl, List.append_nil]] at h
  exact h



/-- C7 counterexample: an action block whose tag is written in upper
case does not decode to the same invocation — the extraction regex is
lowercase-only, so the first lowercase tag (here the parameter tag
`result`) is taken as the action name instead. -/
theorem uppercase_tag_not_recognized_cex :
    decodeInvocation "<COMPLETE><result>Done</result></COMPLETE>" =
      .ok ⟨"result", []⟩ ∧
    jsToLower "COMPLETE" = "complete" ∧
    ("result" : String) ≠ "complete" ∧
    (parseAndExecuteTool envTriv "" "<COMPLETE><result>Done</result></COMPLETE>").response =
      ⟨false, "Unknown tool type: result"⟩ := by
  refine ⟨rfl, by decide, by decide, by decide⟩

/-- C7 amended: a model response consisting of one well-formed action
block — lowercase `[a-z_]` tag, parameter names that are valid XML
names in any letter case, parameter values free of markup and entity
references — decodes to the ParsedInvocation whose actionName is the
block's tag and whose parameters are its children with names
lower-cased (the case-insensitive normalization applies to parameter
element names, not to the action tag). -/
theorem lowercase_block_roundtrip (b : Block) (hb : goodBlock b) :
    decodeInvocation (String.mk (renderBlock b)) =
      .ok ⟨b.tag, b.params.map (fun p => (jsToLower p.1, p.2))⟩ := by
  obtain ⟨tg, prms⟩ := b
  exact decodeInvocation_render_single tg prms hb

/-- C7 witness. -/
theorem lowercase_block_roundtrip_witness :
    goodBlock ⟨"write_file", [("path", "hello.txt"), ("content", "Hello World!")]⟩ ∧
    decodeInvocation (String.mk (renderBlock ⟨"write_file", [("path", "hello.txt"), ("content", "Hello World!")]⟩)) =
      .ok ⟨"write_file", [("path", "hello.txt"), ("content", "Hello World!")]⟩ := by
  refine ⟨by decide, ?_⟩
  have h := lowercase_block_roundtrip
    ⟨"write_file", [("path", "hello.txt"), ("content", "Hello World!")]⟩ (by decide)
  exact h.trans (by rfl)

/-- C5 counterexample: a model response containing two well-formed
action blocks is not a decode failure with no handler executed — the
decoder yields the first root element (`xml2js` emits its result as
soon as the first root closes and ignores the rest), so the first
block's handler runs; with two `complete` blocks it even succeeds and
ends the session. -/
theorem multi_block_dispatches_first_cex :
    (parseAndExecuteTool envTriv ""
      "<complete><result>done</result></complete><complete><result>two</result></complete>").dispatched =
      ["complete"] ∧
    (parseAndExecuteTool envTriv ""
      "<complete><result>done</result></complete><complete><result>two</result></complete>").response =
      ⟨true, "Task completed: done"⟩ ∧
    (parseAndExecuteTool envTriv ""
      "<complete><result>done</result></complete><complete><result>two</result></complete>").isComplete =
      true := by
  refine ⟨rfl, rfl, rfl⟩

/-- C5 amended: at most one handler runs per model response, and a
response with zero recognizable action blocks (no tag match, or empty)
is a decode failure with no handler executed; but a response with more
than one top-level block is not rejected — the first block alone is
decoded (and hence dispatched), the trailing blocks ignored, so there
is still never a partial or double execution. -/
theorem single_dispatch_per_response (env : Env) (op s : String) (b : Block)
    (bs : List Block) (hb : goodBlock b) :
    (parseAndExecuteTool env op s).dispatched.length ≤ 1 ∧
    (findTool (cleanChars s.toList) = none →
      (parseAndExecuteTool env op s).dispatched = [] ∧
      (parseAndExecuteTool env op s).response.success = false) ∧
    ((parseAndExecuteTool env op (String.mk (renderBlocks []))).dispatched = [] ∧
     (parseAndExecuteTool env op (String.mk (renderBlocks []))).response.success = false) ∧
    decodeInvocation (String.mk (renderBlocks (b :: bs))) =
      .ok ⟨b.tag, b.params.map (fun p => (jsToLower p.1, p.2))⟩ := by
  refine ⟨dispatched_le_one env op s, ?_, ⟨rfl, rfl⟩, ?_⟩
  · intro hf
    have hdec : ∃ m, decodeInvocation s = .error m := by
      unfold decodeInvocation
      dsimp only
      by_cases he : (cleanChars s.toList).isEmpty = true
      · rw [if_pos he]
        exact ⟨_, rfl⟩
      · rw [if_neg he, hf]
        exact ⟨_, rfl⟩
    obtain ⟨m, hdec⟩ := hdec
    constructor
    · unfold parseAndExecuteTool
      rw [hdec]
    · unfold parseAndExecuteTool
      rw [hdec]
  · obtain ⟨tg, prms⟩ := b
    exact decodeInvocation_render_first tg prms bs hb

/-- C5 witness: a well-formed first block followed by a second block
decodes to the first block's invocation. -/
theorem single_dispatch_per_response_witness :
    goodBlock ⟨"read_file", [("path", "a.txt")]⟩ ∧
    decodeInvocation (String.mk (renderBlocks
      [⟨"read_file", [("path", "a.txt")]⟩, ⟨"write_file", []⟩])) =
      .ok ⟨"read_file", [("path", "a.txt")]⟩ := by
  refine ⟨by decide, ?_⟩
  have h := (single_dispatch_per_response envTriv "" ""
    ⟨"read_file", [("path", "a.txt")]⟩ [⟨"write_file", []⟩] (by decide)).2.2.2
  exact h.trans (by rfl)

end Agent
